import Mathlib

/-!
Shallow embedding of the metric-comparison scripts (analytics.py / generate.py).

Rows of the two spreadsheet inputs are modelled as records with optional
repository-name / branch fields (None models a pandas NaN), an association
list of metric columns with optional integer values, and an optional
RepoAndBranch column (None models the column being absent for that row).
Metric values are modelled as integers.  The pattern matching of
clean_repo_name is modelled over lists of characters with ASCII
approximations of the Python re character classes.
-/

namespace Charts

/-- Python re class w (ASCII approximation): letters, digits, underscore. -/
def isWordChar (c : Char) : Bool := c.isAlphanum || c = '_'

/-- Python re class s (ASCII approximation): whitespace characters. -/
def isSpaceChar (c : Char) : Bool :=
  c = ' ' || c = '\t' || c = '\n' || c = '\x0b' || c = '\x0c' || c = '\r'

/-- The class in the regexes of clean_repo_name: any char other than underscore and whitespace. -/
def isProjChar (c : Char) : Bool := !(c = '_' || isSpaceChar c)

/-- Attempt to match the first regex of clean_repo_name anchored at the start of s,
returning the two capture groups.  Each quantifier is greedy; since no quantified
class contains the character that must follow it, maximal munch agrees with the
backtracking semantics of Python re. -/
def matchPat1At (s : List Char) : Option (List Char × List Char) :=
  match s with
  | [] => none
  | c :: rest =>
    if c = 'l' || c = 'L' then
      let digits := rest.takeWhile Char.isDigit
      let r1 := rest.dropWhile Char.isDigit
      if digits.isEmpty then none else
      match r1 with
      | '-' :: r2 =>
        let w := r2.takeWhile isWordChar
        let r3 := r2.dropWhile isWordChar
        if w.isEmpty then none else
        match r3 with
        | '-' :: r4 =>
          let g3 := r4.takeWhile isProjChar
          if g3.isEmpty then none else some (w, g3)
        | _ => none
      | _ => none
    else none

/-- re.search for the first regex: leftmost position at which the pattern matches. -/
def searchPat1 : List Char → Option (List Char × List Char)
  | [] => none
  | c :: rest =>
    match matchPat1At (c :: rest) with
    | some g => some g
    | none => searchPat1 rest

/-- All ways of writing a list as prefix ++ suffix, in order of increasing prefix length. -/
def splitsAll : List Char → List (List Char × List Char)
  | [] => [([], [])]
  | c :: cs => ([], c :: cs) :: (splitsAll cs).map (fun p => (c :: p.1, p.2))

/-- The backtracking tail of the second regex: the third capture group is the
longest non-empty run of projection characters that is followed by a dash and at
least one word character; the fourth group is the greedy word run after that dash. -/
def pat2Tail (r4 : List Char) : Option (List Char × List Char) :=
  ((splitsAll r4).reverse.filterMap (fun pr =>
    if pr.1 ≠ [] ∧ pr.1.all isProjChar then
      match pr.2 with
      | '-' :: t =>
        let g4 := t.takeWhile isWordChar
        if g4.isEmpty then none else some (pr.1, g4)
      | _ => none
    else none)).head?

/-- Attempt to match the second regex of clean_repo_name anchored at the start of s. -/
def matchPat2At (s : List Char) : Option (List Char × List Char × List Char) :=
  match s with
  | [] => none
  | c :: rest =>
    if c = 'l' || c = 'L' then
      let digits := rest.takeWhile Char.isDigit
      let r1 := rest.dropWhile Char.isDigit
      if digits.isEmpty then none else
      match r1 with
      | '-' :: r2 =>
        let w := r2.takeWhile isWordChar
        let r3 := r2.dropWhile isWordChar
        if w.isEmpty then none else
        match r3 with
        | '-' :: r4 =>
          match pat2Tail r4 with
          | some (g3, g4) => some (w, g3, g4)
          | none => none
        | _ => none
      | _ => none
    else none

/-- re.search for the second regex. -/
def searchPat2 : List Char → Option (List Char × List Char × List Char)
  | [] => none
  | c :: rest =>
    match matchPat2At (c :: rest) with
    | some g => some g
    | none => searchPat2 rest

/-- Number of underscores in a string (the termination measure for clean_repo_name). -/
def countUnderscores (s : List Char) : Nat := s.countP (fun c => c == '_')

/-- Python str.split on a single underscore character. -/
def splitUz : List Char → List (List Char)
  | [] => [[]]
  | c :: cs =>
    if c = '_' then [] :: splitUz cs
    else
      match splitUz cs with
      | h :: t => (c :: h) :: t
      | [] => [[c]]

/-- Python str.startswith applied with the literal lowercase letter l. -/
def startsWithLetterL (p : List Char) : Bool :=
  match p with
  | c :: _ => c = 'l'
  | [] => false

/-- The underscore fallback of clean_repo_name: when the name contains an
underscore and splits into at least two parts, the first part starting with the
letter l (if any) is the argument of the recursive call. -/
def fallbackPart (s : List Char) : Option (List Char) :=
  if s.contains '_' then
    if (splitUz s).length ≥ 2 then (splitUz s).find? startsWithLetterL
    else none
  else none

theorem splitUz_ne_nil (s : List Char) : splitUz s ≠ [] := by
  induction s with
  | nil => simp [splitUz]
  | cons c cs ih =>
    simp only [splitUz]
    split
    · simp
    · cases h : splitUz cs with
      | nil => exact absurd h ih
      | cons a t => simp

theorem mem_splitUz_no_underscore (s p : List Char) (hp : p ∈ splitUz s) :
    countUnderscores p = 0 := by
  induction s generalizing p with
  | nil =>
    simp only [splitUz, List.mem_singleton] at hp
    subst hp; rfl
  | cons c cs ih =>
    simp only [splitUz] at hp
    split at hp
    · rcases List.mem_cons.mp hp with h | h
      · subst h; rfl
      · exact ih p h
    · cases h : splitUz cs with
      | nil => exact absurd h (splitUz_ne_nil cs)
      | cons a t =>
        rw [h] at hp
        rcases List.mem_cons.mp hp with h2 | h2
        · subst h2
          have ha : a ∈ splitUz cs := by rw [h]; exact List.mem_cons_self a t
          have := ih a ha
          simp only [countUnderscores, List.countP_cons] at *
          have hc : ¬ c = '_' := by assumption
          simp [hc, this]
        · exact ih p (by rw [h]; exact List.mem_cons_of_mem a h2)

theorem contains_countUnderscores_pos (s : List Char) (h : s.contains '_' = true) :
    0 < countUnderscores s := by
  rw [List.contains_eq_any_beq] at h
  rcases List.any_eq_true.mp h with ⟨c, hc, hb⟩
  have hceq : c = '_' := (beq_iff_eq.mp hb).symm
  subst hceq
  exact List.countP_pos_iff.mpr ⟨'_', hc, by simp⟩

theorem fallbackPart_decreases (s part : List Char) (h : fallbackPart s = some part) :
    countUnderscores part < countUnderscores s := by
  unfold fallbackPart at h
  split at h
  · split at h
    · have hmem : part ∈ splitUz s := List.mem_of_find?_eq_some h
      have h0 := mem_splitUz_no_underscore s part hmem
      have hpos := contains_countUnderscores_pos s (by assumption)
      omega
    · exact absurd h (by simp)
  · exact absurd h (by simp)

/-- clean_repo_name from analytics.py: try the two regexes in order, then the
underscore fallback with a recursive call, otherwise return the input unchanged. -/
def clean_repo_name (repo_name : List Char) : List Char :=
  match searchPat1 repo_name with
  | some (tech, project) => tech ++ '-' :: project
  | none =>
    match searchPat2 repo_name with
    | some (tech, project, suffix) => tech ++ '-' :: project ++ '-' :: suffix
    | none =>
      match h : fallbackPart repo_name with
      | some part => clean_repo_name part
      | none => repo_name
termination_by countUnderscores repo_name
decreasing_by
  exact fallbackPart_decreases repo_name part h

theorem clean_eq_pat1 (s t p : List Char) (h1 : searchPat1 s = some (t, p)) :
    clean_repo_name s = t ++ '-' :: p := by
  unfold clean_repo_name
  rw [h1]

theorem clean_eq_pat2 (s t p u : List Char) (h1 : searchPat1 s = none)
    (h2 : searchPat2 s = some (t, p, u)) :
    clean_repo_name s = t ++ '-' :: p ++ '-' :: u := by
  unfold clean_repo_name
  rw [h1, h2]

theorem clean_eq_fallback (s part : List Char) (h1 : searchPat1 s = none)
    (h2 : searchPat2 s = none) (h3 : fallbackPart s = some part) :
    clean_repo_name s = clean_repo_name part := by
  conv_lhs => unfold clean_repo_name
  simp only [h1, h2]
  split
  · rename_i part2 heq
    rw [h3] at heq
    cases heq
    rfl
  · rename_i heq
    rw [h3] at heq
    exact Option.noConfusion heq

theorem clean_eq_none (s : List Char) (h1 : searchPat1 s = none)
    (h2 : searchPat2 s = none) (h3 : fallbackPart s = none) :
    clean_repo_name s = s := by
  unfold clean_repo_name
  simp only [h1, h2]
  split
  · rename_i part heq
    rw [h3] at heq
    exact Option.noConfusion heq
  · rfl

/-- One pattern-matching pass of clean_repo_name without the underscore
fallback: what the function computes when no fallback applies. -/
def cleanStep (s : List Char) : List Char :=
  match searchPat1 s with
  | some (tech, project) => tech ++ '-' :: project
  | none =>
    match searchPat2 s with
    | some (tech, project, suffix) => tech ++ '-' :: project ++ '-' :: suffix
    | none => s

theorem countUnderscores_zero_contains (s : List Char) (h : countUnderscores s = 0) :
    s.contains '_' = false := by
  by_contra hc
  have hc2 : s.contains '_' = true := by
    cases h2 : s.contains '_'
    · exact absurd h2 hc
    · rfl
  have := contains_countUnderscores_pos s hc2
  omega

theorem clean_no_underscore_eq_cleanStep (p : List Char) (h : countUnderscores p = 0) :
    clean_repo_name p = cleanStep p := by
  have hfb : fallbackPart p = none := by
    unfold fallbackPart
    rw [countUnderscores_zero_contains p h]
    simp
  unfold cleanStep
  cases h1 : searchPat1 p with
  | some g =>
    cases g with
    | mk t pr => rw [clean_eq_pat1 p t pr h1]
  | none =>
    cases h2 : searchPat2 p with
    | some g =>
      rcases g with ⟨t, pr, u⟩
      rw [clean_eq_pat2 p t pr u h1 h2]
    | none =>
      rw [clean_eq_none p h1 h2 hfb]

/-!
## Data model of the spreadsheet rows and the comparison engine

A Row models one row of a pandas DataFrame: the essential columns
Repository Name and Branch (None models NaN), the metric columns as an
association list from column name to nullable integer value, and the
RepoAndBranch column that compare_metrics assigns (None models the column
being absent for that row).
-/

structure Row where
  repo : Option String
  branch : Option String
  metrics : List (String × Option Int)
  repoAndBranch : Option String
deriving DecidableEq, Repr

/-- One record of the result list built by compare_metrics. -/
structure Delta where
  repo : String
  branch : String
  cleanName : String
  firstValue : Int
  secondValue : Int
  difference : Int
  metric : String
deriving DecidableEq, Repr

/-- The pandas string concatenation Repository Name + separator + Branch:
NaN in either operand propagates to NaN. -/
def mkKey (r : Row) : Option String :=
  match r.repo, r.branch with
  | some a, some b => some (a ++ "___" ++ b)
  | _, _ => none

/-- The in-place column assignment of compare_metrics: every row of the frame
gets its RepoAndBranch column set. -/
def addKeys (df : List Row) : List Row :=
  df.map (fun r => { r with repoAndBranch := mkKey r })

/-- The non-null values of the RepoAndBranch column of a frame. -/
def keyList (df : List Row) : List String :=
  df.filterMap (fun r => r.repoAndBranch)

/-- The set intersection of the RepoAndBranch values of the two frames,
as a duplicate-free list (iteration order of the Python set is unspecified;
the claims below are membership statements). -/
def commonKeys (f2 s2 : List Row) : List String :=
  (keyList f2).dedup.filter (fun k => decide (k ∈ keyList s2))

/-- The row-selection predicate first_month[first_month[RepoAndBranch] == repo_branch]. -/
def keyMatches (k : String) (r : Row) : Bool :=
  r.repoAndBranch == some k

/-- Reading a metric column of a row: a missing column is a pandas KeyError,
a present column yields its (possibly null) value. -/
def colValue (r : Row) (m : String) : Except String (Option Int) :=
  match r.metrics.lookup m with
  | some v => Except.ok v
  | none => Except.error "KeyError"

/-- Python str.split with the three-underscore separator, over character lists:
scan left to right, breaking at each non-overlapping occurrence of the
separator. -/
def splitSep3 : List Char → List (List Char)
  | '_' :: '_' :: '_' :: rest => [] :: splitSep3 rest
  | c :: cs =>
    match splitSep3 cs with
    | h :: t => (c :: h) :: t
    | [] => [[c]]
  | [] => [[]]

/-- The key split repo_branch.split, as a list of strings. -/
def pySplitKey (k : String) : List String := (splitSep3 k.data).map String.mk

/-- The body of the per-key loop of compare_metrics: skip empty keys, split the
key back into repository and branch (a key that does not split into exactly two
parts raises a ValueError in the unpacking assignment), skip empty repositories,
look up the metric value in each frame and skip null values, compute the
difference, apply the significance rules, and build the result record. -/
def processKey (f2 s2 : List Row) (metric_name : String) (k : String) :
    Except String (Option Delta) :=
  if k = "" then Except.ok none else
  match pySplitKey k with
  | [repo, branch] =>
    if repo = "" then Except.ok none else
    match f2.find? (keyMatches k) with
    | none => Except.ok none
    | some r1 =>
      match colValue r1 metric_name with
      | Except.error e => Except.error e
      | Except.ok none => Except.ok none
      | Except.ok (some first_value) =>
        match s2.find? (keyMatches k) with
        | none => Except.ok none
        | some r2 =>
          match colValue r2 metric_name with
          | Except.error e => Except.error e
          | Except.ok none => Except.ok none
          | Except.ok (some second_value) =>
            let difference := second_value - first_value
            if metric_name = "Code Smell" ∧ difference.natAbs < 20 then Except.ok none
            else if metric_name ≠ "Code Smell" ∧ difference = 0 then Except.ok none
            else Except.ok (some {
              repo := repo
              branch := branch
              cleanName := String.mk (clean_repo_name repo.data)
              firstValue := first_value
              secondValue := second_value
              difference := difference
              metric := metric_name })
  | _ => Except.error "ValueError"

/-- The loop of compare_metrics over the common keys, appending the produced
records; an exception aborts the loop. -/
def processKeys (f2 s2 : List Row) (metric_name : String) :
    List String → Except String (List Delta)
  | [] => Except.ok []
  | k :: ks =>
    match processKey f2 s2 metric_name k with
    | Except.error e => Except.error e
    | Except.ok none => processKeys f2 s2 metric_name ks
    | Except.ok (some d) =>
      match processKeys f2 s2 metric_name ks with
      | Except.error e => Except.error e
      | Except.ok rest => Except.ok (d :: rest)

/-- compare_metrics from analytics.py.  The first two components of the result
are the post-states of the two input frames (the RepoAndBranch column has been
assigned in place before the loop runs); the third is the result list, or the
exception that aborted the loop.  The min_diff parameter is exactly as in the
source: declared and never read. -/
def compare_metrics (first_month second_month : List Row) (metric_name : String)
    (min_diff : Int) :
    List Row × List Row × Except String (List Delta) :=
  let f2 := addKeys first_month
  let s2 := addKeys second_month
  (f2, s2, processKeys f2 s2 metric_name (commonKeys f2 s2))

/-- The dropna(subset=[Repository Name, Branch]) step. -/
def dropnaRepoBranch (df : List Row) : List Row :=
  df.filter (fun r => r.repo.isSome && r.branch.isSome)

/-- needle occurs as a contiguous substring of hay. -/
def substrIn (needle : List Char) : List Char → Bool
  | [] => needle.isEmpty
  | c :: cs => needle.isPrefixOf (c :: cs) || substrIn needle cs

/-- Lower-casing of a string, for the case-insensitive containment test. -/
def lowerStr (s : String) : List Char := s.data.map Char.toLower

/-- The branch mask of filter_branch_data: the branch contains one of the
staging-like substrings, case-insensitively; a null branch never matches
(na=False). -/
def branchMask (b : Option String) : Bool :=
  match b with
  | none => false
  | some s =>
    ["stg", "stage", "stg-aks", "stagging"].any (fun f => substrIn f.data (lowerStr s))

/-- filter_branch_data from analytics.py: drop rows with a missing essential
column, then keep the rows whose branch matches the staging filter. -/
def filter_branch_data (df : List Row) : List Row :=
  (dropnaRepoBranch df).filter (fun r => branchMask r.branch)

/-- The colour applied to the difference cell of an exported row:
green for a negative difference, red otherwise. -/
inductive CellColor where
  | green
  | red
deriving DecidableEq, Repr

def diffColor (difference : Int) : CellColor :=
  if difference < 0 then CellColor.green else CellColor.red

/-- The observable output of create_excel_with_color: either the placeholder
workbook with its message, or the populated table with one coloured
difference cell per row. -/
inductive ExcelOutput where
  | placeholder (message : String)
  | table (rows : List Delta) (colors : List CellColor)
deriving DecidableEq, Repr

/-- create_excel_with_color from analytics.py, abstracted to its observable
output: an empty frame produces the placeholder workbook and the function
returns; otherwise each row is written with its difference cell coloured by
sign. -/
def create_excel_with_color (df : List Delta) (metric_name : String) : ExcelOutput :=
  if df.isEmpty then
    ExcelOutput.placeholder
      ("No significant changes in " ++ metric_name ++ " between first and second")
  else
    ExcelOutput.table df (df.map (fun d => diffColor d.difference))

/-!
## Inversion and completeness lemmas for the per-key loop body
-/

theorem processKey_inv (f2 s2 : List Row) (m k : String) (d : Delta)
    (h : processKey f2 s2 m k = Except.ok (some d)) :
    k ≠ "" ∧
    pySplitKey k = [d.repo, d.branch] ∧
    d.repo ≠ "" ∧
    (∃ r1, f2.find? (keyMatches k) = some r1 ∧
      colValue r1 m = Except.ok (some d.firstValue)) ∧
    (∃ r2, s2.find? (keyMatches k) = some r2 ∧
      colValue r2 m = Except.ok (some d.secondValue)) ∧
    d.difference = d.secondValue - d.firstValue ∧
    d.metric = m ∧
    d.cleanName = String.mk (clean_repo_name d.repo.data) ∧
    (if m = "Code Smell" then 20 ≤ d.difference.natAbs else d.difference ≠ 0) := by
  unfold processKey at h
  split at h
  · simp at h
  rename_i hk
  split at h
  case _ repo branch _ =>
    rename_i hsplit
    split at h
    · simp at h
    rename_i hrepo
    split at h
    · simp at h
    rename_i r1 hfind1
    split at h
    · simp at h
    · simp at h
    rename_i v1 hval1
    split at h
    · simp at h
    rename_i r2 hfind2
    split at h
    · simp at h
    · simp at h
    rename_i v2 hval2
    dsimp only at h
    split at h
    · simp at h
    split at h
    · simp at h
    rename_i hsig1 hsig2
    injection h with h2
    injection h2 with h3
    subst h3
    refine ⟨hk, hsplit, hrepo, ⟨r1, hfind1, hval1⟩, ⟨r2, hfind2, hval2⟩, rfl, rfl, rfl, ?_⟩
    by_cases hm : m = "Code Smell"
    · simp only [if_pos hm]
      rcases not_and_or.mp hsig1 with hc | hc
      · exact absurd hm hc
      · omega
    · simp only [if_neg hm]
      intro hzero
      exact hsig2 ⟨hm, hzero⟩
  case _ =>
    simp at h

theorem processKey_complete (f2 s2 : List Row) (m k repo branch : String)
    (r1 r2 : Row) (v1 v2 : Int)
    (hk : k ≠ "") (hsplit : pySplitKey k = [repo, branch]) (hrepo : repo ≠ "")
    (h1 : f2.find? (keyMatches k) = some r1)
    (hv1 : colValue r1 m = Except.ok (some v1))
    (h2 : s2.find? (keyMatches k) = some r2)
    (hv2 : colValue r2 m = Except.ok (some v2))
    (hsig : if m = "Code Smell" then 20 ≤ (v2 - v1).natAbs else v2 - v1 ≠ 0) :
    processKey f2 s2 m k = Except.ok (some {
      repo := repo
      branch := branch
      cleanName := String.mk (clean_repo_name repo.data)
      firstValue := v1
      secondValue := v2
      difference := v2 - v1
      metric := m }) := by
  have hc1 : ¬ (m = "Code Smell" ∧ (v2 - v1).natAbs < 20) := by
    by_cases hm : m = "Code Smell"
    · rw [if_pos hm] at hsig
      intro hc
      omega
    · intro hc
      exact hm hc.1
  have hc2 : ¬ (m ≠ "Code Smell" ∧ v2 - v1 = 0) := by
    by_cases hm : m = "Code Smell"
    · intro hc
      exact hc.1 hm
    · rw [if_neg hm] at hsig
      intro hc
      exact hsig hc.2
  unfold processKey
  rw [if_neg hk, hsplit]
  dsimp only
  simp only [if_neg hrepo, h1, hv1, h2, hv2, if_neg hc1, if_neg hc2]

theorem processKeys_mem (f2 s2 : List Row) (m : String) :
    ∀ (ks : List String) (res : List Delta),
    processKeys f2 s2 m ks = Except.ok res →
    ∀ d ∈ res, ∃ k ∈ ks, processKey f2 s2 m k = Except.ok (some d) := by
  intro ks
  induction ks with
  | nil =>
    intro res h d hd
    unfold processKeys at h
    injection h with h2
    subst h2
    simp at hd
  | cons k ks ih =>
    intro res h d hd
    unfold processKeys at h
    split at h
    · simp at h
    · rcases ih res h d hd with ⟨k2, hk2, hp2⟩
      exact ⟨k2, List.mem_cons_of_mem k hk2, hp2⟩
    · rename_i d2 hpk
      split at h
      · simp at h
      rename_i rest hrest
      injection h with h2
      subst h2
      rcases List.mem_cons.mp hd with h3 | h3
      · subst h3
        exact ⟨k, List.mem_cons_self k ks, hpk⟩
      · rcases ih rest hrest d h3 with ⟨k2, hk2, hp2⟩
        exact ⟨k2, List.mem_cons_of_mem k hk2, hp2⟩

theorem find_keyMatches_mem (df : List Row) (k : String) (r : Row)
    (h : df.find? (keyMatches k) = some r) : k ∈ keyList df := by
  have hmem := List.mem_of_find?_eq_some h
  have hp := List.find?_some h
  unfold keyMatches at hp
  have hr : r.repoAndBranch = some k := beq_iff_eq.mp hp
  exact List.mem_filterMap.mpr ⟨r, hmem, hr⟩

/-- Claim C1: for every pair of matched records and every metric, the
significance filter retains the delta exactly according to the per-metric
policy: a produced delta for the Code Smell metric has absolute difference at
least 20 and a produced delta for any other metric has a non-zero difference
(soundness); whenever both values are present and the policy holds, the delta
is produced (completeness); and on the documented examples, before 100 and
after 119 produce no Code Smell delta while before 100 and after 120 produce
one with difference 20. -/
theorem C1_significance_policy :
    (∀ (f2 s2 : List Row) (m k : String) (d : Delta),
      processKey f2 s2 m k = Except.ok (some d) →
      if m = "Code Smell" then 20 ≤ d.difference.natAbs else d.difference ≠ 0)
    ∧ (∀ (f2 s2 : List Row) (m k repo branch : String) (r1 r2 : Row) (v1 v2 : Int),
      k ≠ "" → pySplitKey k = [repo, branch] → repo ≠ "" →
      f2.find? (keyMatches k) = some r1 → colValue r1 m = Except.ok (some v1) →
      s2.find? (keyMatches k) = some r2 → colValue r2 m = Except.ok (some v2) →
      (if m = "Code Smell" then 20 ≤ (v2 - v1).natAbs else v2 - v1 ≠ 0) →
      processKey f2 s2 m k = Except.ok (some {
        repo := repo
        branch := branch
        cleanName := String.mk (clean_repo_name repo.data)
        firstValue := v1
        secondValue := v2
        difference := v2 - v1
        metric := m }))
    ∧ (compare_metrics
        [{ repo := some "r1", branch := some "b1",
           metrics := [("Code Smell", some 100)], repoAndBranch := none }]
        [{ repo := some "r1", branch := some "b1",
           metrics := [("Code Smell", some 119)], repoAndBranch := none }]
        "Code Smell" 0).2.2 = Except.ok []
    ∧ (compare_metrics
        [{ repo := some "r1", branch := some "b1",
           metrics := [("Code Smell", some 100)], repoAndBranch := none }]
        [{ repo := some "r1", branch := some "b1",
           metrics := [("Code Smell", some 120)], repoAndBranch := none }]
        "Code Smell" 0).2.2 =
      Except.ok [{ repo := "r1", branch := "b1",
                   cleanName := String.mk (clean_repo_name "r1".data),
                   firstValue := 100, secondValue := 120, difference := 20,
                   metric := "Code Smell" }] := by
  refine ⟨?_, ?_, rfl, rfl⟩
  · intro f2 s2 m k d h
    exact (processKey_inv f2 s2 m k d h).2.2.2.2.2.2.2.2
  · intro f2 s2 m k repo branch r1 r2 v1 v2 hk hsplit hrepo h1 hv1 h2 hv2 hsig
    exact processKey_complete f2 s2 m k repo branch r1 r2 v1 v2 hk hsplit hrepo
      h1 hv1 h2 hv2 hsig

theorem C1_significance_policy_witness :
    processKey
      [{ repo := some "r1", branch := some "b1",
         metrics := [("Duplications", some 1)], repoAndBranch := some "r1___b1" }]
      [{ repo := some "r1", branch := some "b1",
         metrics := [("Duplications", some 3)], repoAndBranch := some "r1___b1" }]
      "Duplications" "r1___b1" =
    Except.ok (some {
      repo := "r1"
      branch := "b1"
      cleanName := String.mk (clean_repo_name "r1".data)
      firstValue := 1
      secondValue := 3
      difference := 3 - 1
      metric := "Duplications" }) :=
  C1_significance_policy.2.1
    [{ repo := some "r1", branch := some "b1",
       metrics := [("Duplications", some 1)], repoAndBranch := some "r1___b1" }]
    [{ repo := some "r1", branch := some "b1",
       metrics := [("Duplications", some 3)], repoAndBranch := some "r1___b1" }]
    "Duplications" "r1___b1" "r1" "b1"
    { repo := some "r1", branch := some "b1",
      metrics := [("Duplications", some 1)], repoAndBranch := some "r1___b1" }
    { repo := some "r1", branch := some "b1",
      metrics := [("Duplications", some 3)], repoAndBranch := some "r1___b1" }
    1 3 (by decide) (by decide) (by decide) rfl rfl rfl rfl
    (by rw [if_neg (by decide : ¬ ("Duplications" = "Code Smell"))]; decide)

/-- Claim C2: compare_metrics emits a delta only for identity keys present in
the RepoAndBranch column of both frames with a non-null value for the compared
metric in both; it never emits a delta for a key absent from either frame. -/
theorem C2_matcher_closed_world :
    ∀ (first second : List Row) (m : String) (md : Int) (res : List Delta),
      (compare_metrics first second m md).2.2 = Except.ok res →
      ∀ d ∈ res, ∃ k,
        k ∈ keyList (addKeys first) ∧ k ∈ keyList (addKeys second) ∧
        (∃ r1, (addKeys first).find? (keyMatches k) = some r1 ∧
          colValue r1 m = Except.ok (some d.firstValue)) ∧
        (∃ r2, (addKeys second).find? (keyMatches k) = some r2 ∧
          colValue r2 m = Except.ok (some d.secondValue)) := by
  intro first second m md res h d hd
  have h2 : processKeys (addKeys first) (addKeys second) m
      (commonKeys (addKeys first) (addKeys second)) = Except.ok res := h
  rcases processKeys_mem (addKeys first) (addKeys second) m
      (commonKeys (addKeys first) (addKeys second)) res h2 d hd with ⟨k, _, hpk⟩
  rcases processKey_inv (addKeys first) (addKeys second) m k d hpk with
    ⟨_, _, _, ⟨r1, hf1, hc1⟩, ⟨r2, hf2, hc2⟩, _⟩
  exact ⟨k, find_keyMatches_mem (addKeys first) k r1 hf1,
    find_keyMatches_mem (addKeys second) k r2 hf2, ⟨r1, hf1, hc1⟩, ⟨r2, hf2, hc2⟩⟩

theorem C2_matcher_closed_world_witness :
    ∃ k,
      k ∈ keyList (addKeys
        [{ repo := some "r1", branch := some "b1",
           metrics := [("Code Smell", some 100)], repoAndBranch := none }]) ∧
      k ∈ keyList (addKeys
        [{ repo := some "r1", branch := some "b1",
           metrics := [("Code Smell", some 120)], repoAndBranch := none }]) ∧
      (∃ r1, (addKeys
        [{ repo := some "r1", branch := some "b1",
           metrics := [("Code Smell", some 100)], repoAndBranch := none }]).find?
            (keyMatches k) = some r1 ∧
        colValue r1 "Code Smell" = Except.ok (some (Delta.firstValue
          { repo := "r1", branch := "b1",
            cleanName := String.mk (clean_repo_name "r1".data),
            firstValue := 100, secondValue := 120, difference := 20,
            metric := "Code Smell" }))) ∧
      (∃ r2, (addKeys
        [{ repo := some "r1", branch := some "b1",
           metrics := [("Code Smell", some 120)], repoAndBranch := none }]).find?
            (keyMatches k) = some r2 ∧
        colValue r2 "Code Smell" = Except.ok (some (Delta.secondValue
          { repo := "r1", branch := "b1",
            cleanName := String.mk (clean_repo_name "r1".data),
            firstValue := 100, secondValue := 120, difference := 20,
            metric := "Code Smell" }))) :=
  C2_matcher_closed_world
    [{ repo := some "r1", branch := some "b1",
       metrics := [("Code Smell", some 100)], repoAndBranch := none }]
    [{ repo := some "r1", branch := some "b1",
       metrics := [("Code Smell", some 120)], repoAndBranch := none }]
    "Code Smell" 0
    [{ repo := "r1", branch := "b1",
       cleanName := String.mk (clean_repo_name "r1".data),
       firstValue := 100, secondValue := 120, difference := 20,
       metric := "Code Smell" }]
    rfl
    { repo := "r1", branch := "b1",
      cleanName := String.mk (clean_repo_name "r1".data),
      firstValue := 100, secondValue := 120, difference := 20,
      metric := "Code Smell" }
    (List.mem_singleton.mpr rfl)

/-- Claim C7: when the filtered delta set for a metric is empty, the export
step produces a placeholder workbook stating that there are no significant
changes for that metric and returns, instead of raising an error. -/
theorem C7_empty_export_placeholder (m : String) :
    create_excel_with_color [] m =
      ExcelOutput.placeholder
        ("No significant changes in " ++ m ++ " between first and second") := rfl

/-- Claim C8: every delta emitted by compare_metrics has a non-zero
difference, its difference cell is coloured green exactly when the difference
is negative and red exactly when it is positive, and the tabular export of a
non-empty result colours each row by this rule, so the two colours exhaust
all emitted rows. -/
theorem C8_color_by_sign :
    (∀ (first second : List Row) (m : String) (md : Int) (res : List Delta),
      (compare_metrics first second m md).2.2 = Except.ok res →
      ∀ d ∈ res,
        d.difference ≠ 0 ∧
        (diffColor d.difference = CellColor.green ↔ d.difference < 0) ∧
        (diffColor d.difference = CellColor.red ↔ 0 < d.difference))
    ∧ (∀ (df : List Delta) (m : String), df ≠ [] →
      create_excel_with_color df m =
        ExcelOutput.table df (df.map (fun d => diffColor d.difference))) := by
  constructor
  · intro first second m md res h d hd
    have h2 : processKeys (addKeys first) (addKeys second) m
        (commonKeys (addKeys first) (addKeys second)) = Except.ok res := h
    rcases processKeys_mem (addKeys first) (addKeys second) m
        (commonKeys (addKeys first) (addKeys second)) res h2 d hd with ⟨k, _, hpk⟩
    have hsig := (processKey_inv (addKeys first) (addKeys second) m k d hpk).2.2.2.2.2.2.2.2
    have hne : d.difference ≠ 0 := by
      by_cases hm : m = "Code Smell"
      · rw [if_pos hm] at hsig
        omega
      · rw [if_neg hm] at hsig
        exact hsig
    refine ⟨hne, ?_, ?_⟩
    · unfold diffColor
      by_cases hlt : d.difference < 0
      · simp [hlt]
      · simp [hlt]
    · unfold diffColor
      by_cases hlt : d.difference < 0
      · simp [hlt]
        omega
      · simp [hlt]
        omega
  · intro df m hne
    unfold create_excel_with_color
    rw [if_neg (by simpa using hne)]

theorem C8_color_by_sign_witness :
    Delta.difference
      { repo := "r1", branch := "b1",
        cleanName := String.mk (clean_repo_name "r1".data),
        firstValue := 100, secondValue := 120, difference := 20,
        metric := "Code Smell" } ≠ 0 ∧
    (diffColor (Delta.difference
      { repo := "r1", branch := "b1",
        cleanName := String.mk (clean_repo_name "r1".data),
        firstValue := 100, secondValue := 120, difference := 20,
        metric := "Code Smell" }) = CellColor.green ↔
      Delta.difference
        { repo := "r1", branch := "b1",
          cleanName := String.mk (clean_repo_name "r1".data),
          firstValue := 100, secondValue := 120, difference := 20,
          metric := "Code Smell" } < 0) ∧
    (diffColor (Delta.difference
      { repo := "r1", branch := "b1",
        cleanName := String.mk (clean_repo_name "r1".data),
        firstValue := 100, secondValue := 120, difference := 20,
        metric := "Code Smell" }) = CellColor.red ↔
      0 < Delta.difference
        { repo := "r1", branch := "b1",
          cleanName := String.mk (clean_repo_name "r1".data),
          firstValue := 100, secondValue := 120, difference := 20,
          metric := "Code Smell" }) :=
  C8_color_by_sign.1
    [{ repo := some "r1", branch := some "b1",
       metrics := [("Code Smell", some 100)], repoAndBranch := none }]
    [{ repo := some "r1", branch := some "b1",
       metrics := [("Code Smell", some 120)], repoAndBranch := none }]
    "Code Smell" 0
    [{ repo := "r1", branch := "b1",
       cleanName := String.mk (clean_repo_name "r1".data),
       firstValue := 100, secondValue := 120, difference := 20,
       metric := "Code Smell" }]
    rfl
    { repo := "r1", branch := "b1",
      cleanName := String.mk (clean_repo_name "r1".data),
      firstValue := 100, secondValue := 120, difference := 20,
      metric := "Code Smell" }
    (List.mem_singleton.mpr rfl)

/-- Claim C9: the branch filter is idempotent: applying filter_branch_data
twice to a record set yields exactly the same result as applying it once. -/
theorem C9_branch_filter_idempotent (df : List Row) :
    filter_branch_data (filter_branch_data df) = filter_branch_data df := by
  have h1 : dropnaRepoBranch (filter_branch_data df) = filter_branch_data df := by
    unfold dropnaRepoBranch
    apply List.filter_eq_self.mpr
    intro r hr
    unfold filter_branch_data dropnaRepoBranch at hr
    exact (List.mem_filter.mp (List.mem_filter.mp hr).1).2
  show (dropnaRepoBranch (filter_branch_data df)).filter (fun r => branchMask r.branch) =
    filter_branch_data df
  rw [h1]
  apply List.filter_eq_self.mpr
  intro r hr
  unfold filter_branch_data at hr
  exact (List.mem_filter.mp hr).2

/-- Claim C3, counterexample: the min_diff parameter of compare_metrics is not
honoured.  With the threshold parameter supplied as 5, a Code Smell delta of
absolute difference 10 (at least the supplied 5) is nevertheless excluded,
because the source compares against the hardcoded constant 20. -/
theorem C3_counterexample_threshold_param :
    (compare_metrics
      [{ repo := some "a", branch := some "b",
         metrics := [("Code Smell", some 100)], repoAndBranch := none }]
      [{ repo := some "a", branch := some "b",
         metrics := [("Code Smell", some 110)], repoAndBranch := none }]
      "Code Smell" 5).2.2 = Except.ok []
    ∧ 5 ≤ ((110 : Int) - 100).natAbs :=
  ⟨rfl, by decide⟩

/-- Claim C3, amended: the min_diff parameter of compare_metrics is declared
but never read, so the result is the same for every supplied value, and a
produced Code Smell delta always has absolute difference at least the
hardcoded 20, for every supplied value of the parameter. -/
theorem C3_min_diff_ignored :
    (∀ (first second : List Row) (m : String) (md1 md2 : Int),
      compare_metrics first second m md1 = compare_metrics first second m md2)
    ∧ (∀ (f2 s2 : List Row) (k : String) (d : Delta),
      processKey f2 s2 "Code Smell" k = Except.ok (some d) →
      20 ≤ d.difference.natAbs) := by
  constructor
  · intro first second m md1 md2
    rfl
  · intro f2 s2 k d h
    have hsig := (processKey_inv f2 s2 "Code Smell" k d h).2.2.2.2.2.2.2.2
    rwa [if_pos rfl] at hsig

theorem C3_min_diff_ignored_witness :
    processKey
      [{ repo := some "a", branch := some "b",
         metrics := [("Code Smell", some 100)], repoAndBranch := some "a___b" }]
      [{ repo := some "a", branch := some "b",
         metrics := [("Code Smell", some 120)], repoAndBranch := some "a___b" }]
      "Code Smell" "a___b" =
      Except.ok (some {
        repo := "a"
        branch := "b"
        cleanName := String.mk (clean_repo_name "a".data)
        firstValue := 100
        secondValue := 120
        difference := 20
        metric := "Code Smell" })
    ∧ 20 ≤ (Delta.difference {
        repo := "a"
        branch := "b"
        cleanName := String.mk (clean_repo_name "a".data)
        firstValue := 100
        secondValue := 120
        difference := 20
        metric := "Code Smell" }).natAbs :=
  ⟨rfl, C3_min_diff_ignored.2
    [{ repo := some "a", branch := some "b",
       metrics := [("Code Smell", some 100)], repoAndBranch := some "a___b" }]
    [{ repo := some "a", branch := some "b",
       metrics := [("Code Smell", some 120)], repoAndBranch := some "a___b" }]
    "a___b"
    { repo := "a", branch := "b",
      cleanName := String.mk (clean_repo_name "a".data),
      firstValue := 100, secondValue := 120, difference := 20,
      metric := "Code Smell" }
    rfl⟩

/-- Claim C4, counterexample: compare_metrics is not free of side effects on
its inputs: on a one-row frame without the RepoAndBranch column, the
post-state of the first input differs from the input (the column has been
assigned). -/
theorem C4_counterexample_inputs_mutated :
    (compare_metrics
      [{ repo := some "a", branch := some "b", metrics := [], repoAndBranch := none }]
      [] "Code Smell" 0).1
    ≠ [{ repo := some "a", branch := some "b", metrics := [], repoAndBranch := none }] := by
  decide

/-- Claim C4, amended: the only side effect of compare_metrics on its inputs
is the in-place assignment of the RepoAndBranch column on both frames; no row
is added or removed and the Repository Name, Branch and metric columns of
every row are unchanged. -/
theorem C4_mutation_exact :
    ∀ (first second : List Row) (m : String) (md : Int),
      (compare_metrics first second m md).1 = addKeys first ∧
      (compare_metrics first second m md).2.1 = addKeys second ∧
      (addKeys first).map (fun r => (r.repo, r.branch, r.metrics)) =
        first.map (fun r => (r.repo, r.branch, r.metrics)) ∧
      (addKeys second).map (fun r => (r.repo, r.branch, r.metrics)) =
        second.map (fun r => (r.repo, r.branch, r.metrics)) := by
  intro first second m md
  refine ⟨rfl, rfl, ?_, ?_⟩
  · unfold addKeys
    rw [List.map_map]
    rfl
  · unfold addKeys
    rw [List.map_map]
    rfl

theorem data_append (a b : String) : (a ++ b).data = a.data ++ b.data := by
  cases a
  cases b
  rfl

theorem append_underscore_inj :
    ∀ (xs ys u v : List Char), '_' ∉ xs → '_' ∉ ys →
      xs ++ '_' :: u = ys ++ '_' :: v → xs = ys ∧ u = v := by
  intro xs
  induction xs with
  | nil =>
    intro ys u v _ hy h
    cases ys with
    | nil => simpa using h
    | cons b bs =>
      simp only [List.nil_append, List.cons_append, List.cons.injEq] at h
      exact absurd (h.1 ▸ List.mem_cons_self b bs) hy
  | cons a as ih =>
    intro ys u v hx hy h
    cases ys with
    | nil =>
      simp only [List.nil_append, List.cons_append, List.cons.injEq] at h
      exact absurd (h.1 ▸ List.mem_cons_self a as) hx
    | cons b bs =>
      simp only [List.cons_append, List.cons.injEq] at h
      have hx2 : '_' ∉ as := fun hm => hx (List.mem_cons_of_mem a hm)
      have hy2 : '_' ∉ bs := fun hm => hy (List.mem_cons_of_mem b hm)
      rcases ih bs u v hx2 hy2 h.2 with ⟨h3, h4⟩
      exact ⟨by rw [h.1, h3], h4⟩

/-- Claim C5, counterexample: the identity key builder is not injective on
(repository identifier, branch) pairs: the pairs (a___b, c) and (a, b___c)
differ but both build the key a___b___c. -/
theorem C5_counterexample_key_collision :
    mkKey { repo := some "a___b", branch := some "c", metrics := [],
            repoAndBranch := none } =
      mkKey { repo := some "a", branch := some "b___c", metrics := [],
              repoAndBranch := none }
    ∧ ¬ ((("a___b" : String), ("c" : String)) = (("a" : String), ("b___c" : String))) :=
  ⟨rfl, by decide⟩

/-- Claim C5, amended: the identity key builder is injective on pairs whose
repository identifiers contain no underscore: two records with such
repository identifiers that build the same composite key agree on both the
repository identifier and the branch. -/
theorem C5_injective_without_underscore :
    ∀ (a1 b1 a2 b2 : String), '_' ∉ a1.data → '_' ∉ a2.data →
      mkKey { repo := some a1, branch := some b1, metrics := [],
              repoAndBranch := none } =
        mkKey { repo := some a2, branch := some b2, metrics := [],
                repoAndBranch := none } →
      a1 = a2 ∧ b1 = b2 := by
  intro a1 b1 a2 b2 h1 h2 hk
  unfold mkKey at hk
  have hs : a1 ++ "___" ++ b1 = a2 ++ "___" ++ b2 := Option.some.injEq _ _ ▸ hk
  have hd : a1.data ++ '_' :: ('_' :: '_' :: b1.data) =
      a2.data ++ '_' :: ('_' :: '_' :: b2.data) := by
    have := congrArg String.data hs
    rwa [data_append, data_append, data_append, data_append,
      show ("___" : String).data = ['_', '_', '_'] from rfl,
      List.append_assoc, List.append_assoc] at this
  rcases append_underscore_inj a1.data a2.data _ _ h1 h2 hd with ⟨hda, hdb⟩
  have hb : b1.data = b2.data := by
    injection hdb with _ hdb2
    injection hdb2 with _ hdb3
  constructor
  · cases a1
    cases a2
    exact congrArg String.mk hda
  · cases b1
    cases b2
    exact congrArg String.mk hb

theorem C5_injective_without_underscore_witness :
    ("x" : String) = "x" ∧ ("y" : String) = "y" :=
  C5_injective_without_underscore "x" "y" "x" "y" (by decide) (by decide) rfl

/-- Claim C6: the display name normalizer maps l3-angular-delta to
angular-delta and l3-net-ipex-business to net-ipex-business, and an input in
which neither regex matches and no usable underscore-delimited segment is
found is returned unchanged. -/
theorem C6_display_name_normalizer :
    clean_repo_name "l3-angular-delta".data = "angular-delta".data
    ∧ clean_repo_name "l3-net-ipex-business".data = "net-ipex-business".data
    ∧ ∀ s : List Char, searchPat1 s = none → searchPat2 s = none →
        fallbackPart s = none → clean_repo_name s = s := by
  refine ⟨?_, ?_, clean_eq_none⟩
  · rw [clean_eq_pat1 _ "angular".data "delta".data (by decide)]
    decide
  · rw [clean_eq_pat1 _ "net".data "ipex-business".data (by decide)]
    decide

theorem C6_display_name_normalizer_witness :
    searchPat1 "plainrepo".data = none ∧ searchPat2 "plainrepo".data = none ∧
    fallbackPart "plainrepo".data = none ∧
    clean_repo_name "plainrepo".data = "plainrepo".data :=
  ⟨by decide, by decide, by decide,
    C6_display_name_normalizer.2.2 "plainrepo".data (by decide) (by decide) (by decide)⟩

/-- Claim C10: the recursive underscore fallback of clean_repo_name recurses
at most one level: every underscore-split segment contains no underscore, and
on an argument without underscores clean_repo_name never takes the fallback
branch, computing exactly the single pattern-matching pass. -/
theorem C10_fallback_depth_one :
    (∀ (s p : List Char), p ∈ splitUz s → countUnderscores p = 0)
    ∧ (∀ p : List Char, countUnderscores p = 0 → clean_repo_name p = cleanStep p) :=
  ⟨mem_splitUz_no_underscore, clean_no_underscore_eq_cleanStep⟩

theorem C10_fallback_depth_one_witness :
    countUnderscores "l3-x".data = 0 ∧
    clean_repo_name "l3-x".data = cleanStep "l3-x".data :=
  ⟨C10_fallback_depth_one.1 "l3-x_99".data "l3-x".data (by decide),
    C10_fallback_depth_one.2 "l3-x".data (by decide)⟩

end Charts
